import Mathlib

/-!
Shallow embedding of `src/visualizer.py` (PyVisualizer): the frame-scheduling
driver loop, the spectral frequency axis, the adaptive-range smoother, and the
geometry and color computations of the three visualizer variants, together
with theorems settling the specification claims about them.

Real (Python float) arithmetic is modelled over `ℚ`; Python `int()` is
modelled as truncation toward zero; a Python statement that raises an
exception is modelled as an `Option` returning `none`.
-/

namespace PyVisualizer

/-- `SAMPLE_MAX = 32767` (visualizer.py line 12). -/
def SAMPLE_MAX : ℤ := 32767

/-- `SAMPLE_MIN = -(SAMPLE_MAX + 1)` (line 13). -/
def SAMPLE_MIN : ℤ := -(SAMPLE_MAX + 1)

/-- `SAMPLE_RATE = 44100` Hz (line 14). -/
def SAMPLE_RATE : ℚ := 44100

/-- `BUFFER_SIZE = 5000` samples (line 18). -/
def BUFFER_SIZE : ℕ := 5000

/-- Python `int()` applied to a real number: truncation toward zero. -/
def pyint (q : ℚ) : ℤ := if 0 ≤ q then ⌊q⌋ else -⌊-q⌋

/-- Result of one `Visualizer.refresh` tick (lines 46-56): the delay actually
passed to `QTimer.singleShot`, and the value of the local variable `interval`
the body computes on the way. -/
structure RefreshTick where
  scheduledDelay : ℚ
  computedInterval : ℚ

/-- `Visualizer.refresh` (lines 46-56): `interval` starts at
`self.update_interval`; when a sample block is present it is decreased by the
elapsed processing time in milliseconds, but the delay passed to
`QTimer.singleShot` on line 56 is `self.update_interval`, not `interval`. -/
def refresh (update_interval : ℚ) (hasData : Bool) (elapsedMs : ℚ) : RefreshTick :=
  let interval := update_interval
  let interval2 := if hasData then interval - elapsedMs else interval
  { scheduledDelay := update_interval, computedInterval := interval2 }

/-- Length of `np.fft.rfft` output for an input of length `N`: `N / 2 + 1`. -/
def rfftLen (N : ℕ) : ℕ := N / 2 + 1

/-- `np.fft.fftfreq(n, d = 1 / SAMPLE_RATE)` at index `i`: the value is
`i / (d * n)` for `i ≤ (n - 1) / 2` and `(i - n) / (d * n)` for the
remaining (negative-frequency) indices. -/
def fftfreqAt (n i : ℕ) : ℚ :=
  if i ≤ (n - 1) / 2 then (i : ℚ) * SAMPLE_RATE / (n : ℚ)
  else ((i : ℚ) - (n : ℚ)) * SAMPLE_RATE / (n : ℚ)

/-- The frequency the code associates with magnitude-spectrum bin `i` of a
length-`N` block (lines 121-123 and 360-362): the absolute value of
`np.fft.fftfreq(len(fft), d = 1/SAMPLE_RATE)[i]` where `len(fft) = N/2 + 1`. -/
def codeBinFreq (N i : ℕ) : ℚ := |fftfreqAt (rfftLen N) i|

/-- The frequency axis the specification states: bin `i` corresponds to
`i * SAMPLE_RATE / N`. -/
def specBinFreq (N i : ℕ) : ℚ := (i : ℚ) * SAMPLE_RATE / (N : ℚ)

/-- `getTrimString` (lines 430-433): find the first `.` in the decimal string
of the number and keep everything up to two characters past it.
`str.index(".")` raises `ValueError` when there is no `.`; that exception is
modelled as `none`. -/
def getTrimString (numString : String) : Option String :=
  match numString.toList.findIdx? (fun c => c == '.') with
  | none => none
  | some decimalSpot => some ((numString.toList.take (decimalSpot + 2)).asString)

/-- `CustomVisualizer.__drawStats__` line 335 in raw (non-rolling) mode: the
displayed amplitude is `np.amax(data)`, an integer, and its text is
`getTrimString(str(max_amplitude))`. -/
def drawStatsAmplitudeText (max_amplitude : ℤ) : Option String :=
  getTrimString (toString max_amplitude)

/-- Upper end of `random.randint(0, int(max_amplitude / float(SAMPLE_MAX) * 10))`
in `LineVisualizer.generate` line 145; `random.randint(0, b)` raises
`ValueError` whenever `b < 0`. -/
def lineRandUpper (max_amplitude : ℤ) : ℤ :=
  pyint ((max_amplitude : ℚ) / (SAMPLE_MAX : ℚ) * 10)

/-- `CustomVisualizer.__getDecimalRange__` (lines 225-239) acting on one
channel's `(lowerBound, width)` pair: returns the pre-adjustment ratio
together with the updated pair. -/
def getDecimalRange (range : ℚ × ℚ) (val : ℚ) : ℚ × (ℚ × ℚ) :=
  let valRatio := (val - range.1) / range.2
  if 1 < valRatio then (valRatio, (range.1, val - range.1))
  else if valRatio < 0 then (valRatio, (val, range.2))
  else (valRatio, range)

/-- One adaptive-range operation: a `normalize` call (`__getDecimalRange__`)
or the per-frame decay step of `__updateMaximums__` (lines 314-316), which
multiplies the width by `0.999`. -/
inductive RangeOp
  | normalize (val : ℚ)
  | decay

/-- Apply one `RangeOp` to a `(lowerBound, width)` pair. -/
def applyRangeOp (range : ℚ × ℚ) : RangeOp → ℚ × ℚ
  | RangeOp.normalize val => (getDecimalRange range val).2
  | RangeOp.decay => (range.1, range.2 * (999 / 1000))

/-- `LineVisualizer.generate` lines 128-133: the rectangle height computed
from the dominant frequency and the screen height, including the
`if rect_height == 2: rect_height = 1` adjustment on line 133. -/
def rectHeight (screenHeight : ℤ) (max_freq : ℚ) : ℤ :=
  if 20000 ≤ max_freq then 1
  else
    let rh := pyint ((screenHeight : ℚ) * max_freq / 20000)
    if rh = 2 then 1 else rh

/-- `self.max_points = 128` (line 206). -/
def max_points : ℤ := 128

/-- `CustomVisualizer.__getPoints__` (lines 302-311): the number of star point
pairs built from the amplitude ratio — `ratio * max_points` with
`max_points = 128`, clamped below at `2` and above at `max_points`, then
truncated by Python `int()`. -/
def getPointsCount (ratio : ℚ) : ℤ :=
  let points0 := ratio * 128
  let points1 := if points0 < 2 then 2 else points0
  let points2 := if 128 < points1 then 128 else points1
  pyint points2

/-- `CustomVisualizer.__getColor__` (lines 277-299) as a function of the
frequency ratio `colVal` returned by `__getDecimalRange__`: the RGB triple
of the brush color. -/
def getColor (colVal : ℚ) : ℚ × ℚ × ℚ :=
  let color0 := if 1 / 2 < colVal then (colVal - 1 / 2) * 2 else colVal * 2
  let color1 := color0 * 255
  let color2 := if color1 < 0 then 0 else color1
  let color3 := if 255 < color2 then 255 else color2
  if 1 / 2 < colVal then (color3, 255 - color3, 0) else (0, color3, 255 - color3)

/-- Arithmetic mean of a list of rationals (`np.mean`). -/
def listMean (l : List ℚ) : ℚ := l.sum / (l.length : ℚ)

/-- `Spectrogram.generate` lines 163-171: 200 bins with
`step = int(len(fft) / 200)`; bin `i` is the mean of the slice
`fft[i : i + step]`. -/
def spectrogramBins (fft : List ℚ) : List ℚ :=
  let step := fft.length / 200
  (List.range 200).map (fun i => listMean ((fft.drop i).take step))

/-- Bar height in `Spectrogram.generate` line 180:
`self.height() * bin / float(SAMPLE_MAX) / 10`. -/
def specBarHeight (screenHeight b : ℚ) : ℚ := screenHeight * b / (SAMPLE_MAX : ℚ) / 10

/-- Top `y` coordinate of the bar drawn on line 182
(`self.height() - height`): the bar is anchored to the bottom of the frame. -/
def specBarTop (screenHeight b : ℚ) : ℚ := screenHeight - specBarHeight screenHeight b

/-- Key events relevant to the learning-rate logic of
`CustomVisualizer.keyPressEvent` (lines 396-427): `=`, `-`, or anything
else. -/
inductive VisKey
  | equal
  | minus
  | other

/-- The two learning rates of the radial-star visualizer. -/
structure LearningRates where
  amplLearningRate : ℚ
  freqLearningRate : ℚ

/-- `CustomVisualizer.__init__` lines 216-217: both rates start at `0.90`. -/
def initRates : LearningRates :=
  { amplLearningRate := 9 / 10, freqLearningRate := 9 / 10 }

/-- The learning-rate part of `CustomVisualizer.keyPressEvent`
(lines 401-408): `=` adds `0.01` to both rates when
`amplLearningRate < 0.99`; `-` subtracts `0.01` from both when
`amplLearningRate > 0.01`; both guards inspect only `amplLearningRate`. -/
def keyPressRates (s : LearningRates) : VisKey → LearningRates
  | VisKey.equal =>
      if s.amplLearningRate < 99 / 100 then
        { amplLearningRate := s.amplLearningRate + 1 / 100,
          freqLearningRate := s.freqLearningRate + 1 / 100 }
      else s
  | VisKey.minus =>
      if 1 / 100 < s.amplLearningRate then
        { amplLearningRate := s.amplLearningRate - 1 / 100,
          freqLearningRate := s.freqLearningRate - 1 / 100 }
      else s
  | VisKey.other => s

/-- Helper: Python `int()` agrees with the floor on nonnegative inputs. -/
theorem pyint_eq_floor (q : ℚ) (hq : 0 ≤ q) : pyint q = ⌊q⌋ := if_pos hq

/-- C1: on a tick with a sample block present, `update_interval = 33` ms and
`10` ms of processing time, `refresh` computes the adjusted interval
`33 - 10 = 23 = max(0, 33 - 10)` into its local variable, but the delay it
actually schedules is `33`, not `max(0, 33 - 10)`: the adjusted interval is
discarded, contradicting the claim (and the code's own comment on line 53). -/
theorem c1_scheduler_ignores_processing_time :
    (refresh 33 true 10).scheduledDelay = 33 ∧
    (refresh 33 true 10).computedInterval = 23 ∧
    max 0 ((33 : ℚ) - 10) = 23 ∧
    (refresh 33 true 10).scheduledDelay ≠ max 0 ((33 : ℚ) - 10) := by
  refine ⟨rfl, by norm_num [refresh], by norm_num, ?_⟩
  show (33 : ℚ) ≠ max 0 ((33 : ℚ) - 10)
  norm_num

/-- C2: the code builds its frequency axis with
`np.fft.fftfreq(len(fft))` = `fftfreq(N/2 + 1)` instead of using the block
length `N`, so for a 5000-sample block the frequency it associates with bin
50 is `50 * 44100 / 2501 ≈ 881.6` Hz — not the claimed
`50 * 44100 / 5000 = 441` Hz — and is not within one FFT bin width
(`44100 / 5000 = 8.82` Hz) of 440 Hz, while the claimed axis value is. -/
theorem c2_frequency_axis_mismatch :
    codeBinFreq 5000 50 = 2205000 / 2501 ∧
    specBinFreq 5000 50 = 441 ∧
    codeBinFreq 5000 50 ≠ specBinFreq 5000 50 ∧
    ¬ |codeBinFreq 5000 50 - 440| ≤ SAMPLE_RATE / 5000 ∧
    |specBinFreq 5000 50 - 440| ≤ SAMPLE_RATE / 5000 := by
  refine ⟨?_, ?_, ?_, ?_, ?_⟩
  · norm_num [codeBinFreq, fftfreqAt, rfftLen, SAMPLE_RATE]
  · norm_num [specBinFreq, SAMPLE_RATE]
  · norm_num [codeBinFreq, specBinFreq, fftfreqAt, rfftLen, SAMPLE_RATE, abs]
  · norm_num [codeBinFreq, fftfreqAt, rfftLen, SAMPLE_RATE, abs]
  · norm_num [specBinFreq, SAMPLE_RATE, abs]

/-- C3: `generate` is not total. In the radial-star variant with
`display_stats` on and `use_rolling` off, the displayed amplitude is the
integer `np.amax(data)` (e.g. `20000`), and `getTrimString(str(20000))`
raises `ValueError` because `"20000"` contains no `.` (modelled as `none`);
and in the bar-grid variant an all-negative block with maximum sample
`-32768` makes the upper end of `random.randint(0, ...)` equal `-10 < 0`,
which also raises `ValueError`. -/
theorem c3_generate_raises :
    drawStatsAmplitudeText 20000 = none ∧
    lineRandUpper (-32768) = -10 ∧
    lineRandUpper (-32768) < 0 := by
  refine ⟨rfl, ?_, ?_⟩ <;> norm_num [lineRandUpper, pyint, SAMPLE_MAX]

/-- C4: `__getDecimalRange__` returns the pre-adjustment ratio
`(val - lowerBound) / width`; when the ratio exceeds 1 the range becomes
`(lowerBound, val - lowerBound)`, when it is negative the range becomes
`(val, width)`; in particular `(100, 50)` with value `200` yields
`(100, 100)` and with value `50` yields `(50, 50)`. -/
theorem c4_normalize_spec (lb w val : ℚ) (hw : 0 < w) :
    (getDecimalRange (lb, w) val).1 = (val - lb) / w ∧
    (1 < (val - lb) / w → (getDecimalRange (lb, w) val).2 = (lb, val - lb)) ∧
    ((val - lb) / w < 0 → (getDecimalRange (lb, w) val).2 = (val, w)) ∧
    getDecimalRange (100, 50) 200 = (2, (100, 100)) ∧
    getDecimalRange (100, 50) 50 = (-1, (50, 50)) := by
  refine ⟨?_, ?_, ?_, by norm_num [getDecimalRange], by norm_num [getDecimalRange]⟩
  · unfold getDecimalRange
    dsimp only
    split_ifs <;> rfl
  · intro h
    unfold getDecimalRange
    dsimp only
    rw [if_pos h]
  · intro h
    unfold getDecimalRange
    dsimp only
    rw [if_neg (by linarith), if_pos h]

/-- C4 witness: the theorem instantiated at range `(100, 50)` and
value `200`. -/
theorem c4_normalize_spec_witness :
    (0 : ℚ) < 50 ∧
    ((getDecimalRange (100, 50) 200).1 = ((200 : ℚ) - 100) / 50 ∧
     (1 < ((200 : ℚ) - 100) / 50 → (getDecimalRange (100, 50) 200).2 = (100, 200 - 100)) ∧
     (((200 : ℚ) - 100) / 50 < 0 → (getDecimalRange (100, 50) 200).2 = (200, 50)) ∧
     getDecimalRange (100, 50) 200 = (2, (100, 100)) ∧
     getDecimalRange (100, 50) 50 = (-1, (50, 50))) :=
  ⟨by norm_num, c4_normalize_spec 100 50 200 (by norm_num)⟩

/-- Helper for C5: a single `__getDecimalRange__` call keeps the width
positive, because the `ratio > 1` branch replaces the width with
`val - lowerBound`, which then exceeds the old (positive) width. -/
theorem getDecimalRange_width_pos (range : ℚ × ℚ) (val : ℚ) (h : 0 < range.2) :
    0 < (getDecimalRange range val).2.2 := by
  unfold getDecimalRange
  dsimp only
  split_ifs with h1 h2
  · have hlt : range.2 < val - range.1 := (one_lt_div h).mp h1
    dsimp only
    linarith
  · exact h
  · exact h

/-- C5: for every sequence of normalize calls and per-frame decay steps
applied to an adaptive range whose width starts positive, the width stays
positive. -/
theorem c5_width_positive (ops : List RangeOp) (range : ℚ × ℚ)
    (h : 0 < range.2) : 0 < (ops.foldl applyRangeOp range).2 := by
  induction ops generalizing range with
  | nil => exact h
  | cons op rest ih =>
      rw [List.foldl_cons]
      apply ih
      cases op with
      | normalize val => exact getDecimalRange_width_pos range val h
      | decay =>
          show 0 < range.2 * (999 / 1000)
          exact mul_pos h (by norm_num)

/-- C5 witness: the theorem instantiated at the initial range `(1000, 100)`
of the code with one normalize call followed by one decay step. -/
theorem c5_width_positive_witness :
    (0 : ℚ) < ((1000 : ℚ), (100 : ℚ)).2 ∧
    0 < ([RangeOp.normalize 2000, RangeOp.decay].foldl applyRangeOp
          ((1000 : ℚ), (100 : ℚ))).2 :=
  ⟨by norm_num,
   c5_width_positive [RangeOp.normalize 2000, RangeOp.decay] (1000, 100)
     (by norm_num)⟩

/-- C6 counterexample: with screen height `800` and dominant frequency
`50 < 20000` Hz, the claimed height is `⌊800 * 50 / 20000⌋ = 2`, but
line 133 (`if rect_height == 2: rect_height = 1`) makes the code return
`1`, refuting the claim that the height always equals the linear
interpolation below the cap. -/
theorem c6_height_two_counterexample :
    rectHeight 800 50 = 1 ∧
    ⌊(((800 : ℤ) : ℚ)) * 50 / 20000⌋ = 2 ∧
    rectHeight 800 50 ≠ ⌊(((800 : ℤ) : ℚ)) * 50 / 20000⌋ := by
  refine ⟨?_, ?_, ?_⟩ <;> norm_num [rectHeight, pyint]

/-- C6 amended: for nonnegative screen height and frequency, a frequency at
or above 20000 Hz gives height 1; below the cap the height is
`⌊h * f / 20000⌋`, except that when that value is exactly `2` the height is
set to `1`. -/
theorem c6_rect_height_amended (h : ℤ) (f : ℚ) (hh : 0 ≤ h) (hf : 0 ≤ f) :
    (20000 ≤ f → rectHeight h f = 1) ∧
    (f < 20000 → ⌊(h : ℚ) * f / 20000⌋ = 2 → rectHeight h f = 1) ∧
    (f < 20000 → ⌊(h : ℚ) * f / 20000⌋ ≠ 2 →
      rectHeight h f = ⌊(h : ℚ) * f / 20000⌋) := by
  have hh0 : (0 : ℚ) ≤ (h : ℚ) := by exact_mod_cast hh
  have hnn : 0 ≤ (h : ℚ) * f / 20000 :=
    div_nonneg (mul_nonneg hh0 hf) (by norm_num)
  refine ⟨?_, ?_, ?_⟩
  · intro h20
    unfold rectHeight
    rw [if_pos h20]
  · intro h20 h2
    unfold rectHeight
    rw [if_neg (not_le.mpr h20)]
    dsimp only
    rw [pyint_eq_floor _ hnn, if_pos h2]
  · intro h20 h2
    unfold rectHeight
    rw [if_neg (not_le.mpr h20)]
    dsimp only
    rw [pyint_eq_floor _ hnn, if_neg h2]

/-- C6 witness: the amended theorem instantiated at screen height `800` and
frequency `50` Hz, where the `== 2` exception fires. -/
theorem c6_rect_height_amended_witness :
    (0 : ℤ) ≤ 800 ∧ (0 : ℚ) ≤ 50 ∧
    ((20000 ≤ (50 : ℚ) → rectHeight 800 50 = 1) ∧
     ((50 : ℚ) < 20000 → ⌊((800 : ℤ) : ℚ) * 50 / 20000⌋ = 2 → rectHeight 800 50 = 1) ∧
     ((50 : ℚ) < 20000 → ⌊((800 : ℤ) : ℚ) * 50 / 20000⌋ ≠ 2 →
       rectHeight 800 50 = ⌊((800 : ℤ) : ℚ) * 50 / 20000⌋)) :=
  ⟨by norm_num, by norm_num, c6_rect_height_amended 800 50 (by norm_num) (by norm_num)⟩

/-- C7: the star's point count is the amplitude ratio times
`max_points = 128`, clamped into `[2, 128]`: it always lies in that
interval, a ratio at or below `0` gives `2`, and a ratio at or above `1`
gives `max_points`. -/
theorem c7_point_count_clamped (r : ℚ) :
    2 ≤ getPointsCount r ∧ getPointsCount r ≤ max_points ∧
    (r ≤ 0 → getPointsCount r = 2) ∧
    (1 ≤ r → getPointsCount r = max_points) := by
  by_cases h1 : r * 128 < 2
  · have e : getPointsCount r = 2 := by
      unfold getPointsCount
      dsimp only
      rw [if_pos h1, if_neg (by norm_num : ¬(128 : ℚ) < 2)]
      norm_num [pyint]
    refine ⟨le_of_eq e.symm, ?_, fun _ => e, fun hr => ?_⟩
    · rw [e]; norm_num [max_points]
    · exfalso
      have h128 : (1 : ℚ) * 128 ≤ r * 128 :=
        mul_le_mul_of_nonneg_right hr (by norm_num)
      linarith
  · push_neg at h1
    by_cases h2 : (128 : ℚ) < r * 128
    · have e : getPointsCount r = 128 := by
        unfold getPointsCount
        dsimp only
        rw [if_neg (not_lt.mpr h1), if_pos h2]
        norm_num [pyint]
      refine ⟨?_, ?_, fun hr => ?_, fun _ => by rw [e, max_points]⟩
      · rw [e]; norm_num
      · rw [e, max_points]
      · exfalso
        have : r * 128 ≤ 0 * 128 :=
          mul_le_mul_of_nonneg_right hr (by norm_num)
        linarith
    · push_neg at h2
      have e : getPointsCount r = ⌊r * 128⌋ := by
        unfold getPointsCount
        dsimp only
        rw [if_neg (not_lt.mpr h1), if_neg (not_lt.mpr h2)]
        exact pyint_eq_floor _ (by linarith)
      refine ⟨?_, ?_, fun hr => ?_, fun hr => ?_⟩
      · rw [e]
        exact Int.le_floor.mpr (by exact_mod_cast h1)
      · rw [e, max_points]
        have hq : (⌊r * 128⌋ : ℚ) ≤ r * 128 := Int.floor_le _
        exact_mod_cast hq.trans h2
      · exfalso
        have : r * 128 ≤ 0 * 128 :=
          mul_le_mul_of_nonneg_right hr (by norm_num)
        linarith
      · have h128 : (1 : ℚ) * 128 ≤ r * 128 :=
          mul_le_mul_of_nonneg_right hr (by norm_num)
        have heq : r * 128 = 128 := by linarith
        rw [e, heq, max_points]
        norm_num

/-- Helper for C8: the sequential lower/upper clamp applied to the scaled
color value in lines 290-294. -/
def clampColor (q : ℚ) : ℚ :=
  if 255 < (if q < 0 then 0 else q) then 255 else (if q < 0 then 0 else q)

/-- Helper for C8: the clamp lands in `[0, 255]`. -/
theorem clampColor_mem (q : ℚ) : 0 ≤ clampColor q ∧ clampColor q ≤ 255 := by
  unfold clampColor
  split_ifs <;> constructor <;> linarith

/-- Helper for C8: `__getColor__` written by cases on `pastHalf`. -/
theorem getColor_eq (r : ℚ) :
    getColor r =
      if 1 / 2 < r then
        (clampColor ((r - 1 / 2) * 2 * 255), 255 - clampColor ((r - 1 / 2) * 2 * 255), 0)
      else
        (0, clampColor (r * 2 * 255), 255 - clampColor (r * 2 * 255)) := by
  unfold getColor clampColor
  dsimp only
  split_ifs <;> rfl

/-- C8: every RGB component of the radial-star color lies in `[0, 255]`;
ratios below `0.5` produce colors on the blue→green gradient
(red `= 0`, green `+` blue `= 255`), ratios at or above `0.5` produce colors
on the green→red gradient (blue `= 0`, red `+` green `= 255`), and at ratio
exactly `0.5` the color is the common boundary color `(0, 255, 0)`. -/
theorem c8_color_gradient (r : ℚ) :
    (0 ≤ (getColor r).1 ∧ (getColor r).1 ≤ 255) ∧
    (0 ≤ (getColor r).2.1 ∧ (getColor r).2.1 ≤ 255) ∧
    (0 ≤ (getColor r).2.2 ∧ (getColor r).2.2 ≤ 255) ∧
    (r < 1 / 2 → (getColor r).1 = 0 ∧ (getColor r).2.1 + (getColor r).2.2 = 255) ∧
    (1 / 2 ≤ r → (getColor r).2.2 = 0 ∧ (getColor r).1 + (getColor r).2.1 = 255) ∧
    (r = 1 / 2 → getColor r = (0, 255, 0)) := by
  rw [getColor_eq]
  by_cases h1 : 1 / 2 < r
  · rw [if_pos h1]
    obtain ⟨hc0, hc255⟩ := clampColor_mem ((r - 1 / 2) * 2 * 255)
    dsimp only
    refine ⟨⟨hc0, hc255⟩, ⟨by linarith, by linarith⟩, ⟨le_refl 0, by norm_num⟩,
      fun hr => absurd h1 (by linarith), fun _ => ⟨rfl, by ring⟩, fun hr => ?_⟩
    exfalso
    rw [hr] at h1
    exact lt_irrefl _ h1
  · rw [if_neg h1]
    push_neg at h1
    obtain ⟨hc0, hc255⟩ := clampColor_mem (r * 2 * 255)
    dsimp only
    refine ⟨⟨le_refl 0, by norm_num⟩, ⟨hc0, hc255⟩, ⟨by linarith, by linarith⟩,
      fun _ => ⟨rfl, by ring⟩, fun hr => ?_, fun hr => ?_⟩
    · have hr2 : r = 1 / 2 := le_antisymm h1 hr
      subst hr2
      have hcl : clampColor ((1 / 2 : ℚ) * 2 * 255) = 255 := by
        norm_num [clampColor]
      rw [hcl]
      norm_num
    · subst hr
      have hcl : clampColor ((1 / 2 : ℚ) * 2 * 255) = 255 := by
        norm_num [clampColor]
      rw [hcl]
      norm_num [Prod.ext_iff]

/-- Helper for C9: a `take`/`drop` slice that stays inside the list is the
pointwise lookup of the index range `[i, i + k)`. -/
theorem drop_take_eq_range_map (l : List ℚ) (i k : ℕ) (h : i + k ≤ l.length) :
    (l.drop i).take k = (List.range k).map (fun j => l.getD (i + j) 0) := by
  apply List.ext_getElem
  · simp only [List.length_take, List.length_drop, List.length_map, List.length_range]
    omega
  · intro n h1 h2
    have hd : n < (l.drop i).length := by
      simp only [List.length_take, List.length_drop] at h1 ⊢
      omega
    have hl : i + n < l.length := by
      simp only [List.length_drop] at hd
      omega
    rw [List.getElem_take, List.getElem_drop]
    rw [List.getElem_map, List.getElem_range]
    rw [List.getD_eq_getElem l 0 hl]

/-- C9: for a spectrum of length `2501` (a 5000-sample block), the
spectrogram produces exactly 200 bins with `step = ⌊2501 / 200⌋ = 12`,
bin `i` is the mean of the magnitude spectrum over indices `[i, i + 12)`,
and the bar geometry is `height = bin / SAMPLE_MAX / 10 * screenHeight`
with its top at `screenHeight - height` (anchored to the bottom). -/
theorem c9_spectrogram_bins (fft : List ℚ) (hlen : fft.length = 2501) :
    (spectrogramBins fft).length = 200 ∧
    fft.length / 200 = 12 ∧
    (∀ i : ℕ, i < 200 →
      (spectrogramBins fft).getD i 0 =
        ((List.range 12).map (fun j => fft.getD (i + j) 0)).sum / 12) ∧
    (∀ hgt b : ℚ, specBarHeight hgt b = b / (SAMPLE_MAX : ℚ) / 10 * hgt ∧
      specBarTop hgt b = hgt - specBarHeight hgt b) := by
  have hstep : fft.length / 200 = 12 := by rw [hlen]
  refine ⟨by simp [spectrogramBins], hstep, ?_, ?_⟩
  · intro i hi
    have hbound : i + 12 ≤ fft.length := by omega
    unfold spectrogramBins
    dsimp only
    rw [hstep]
    have hlt : i < ((List.range 200).map
        (fun j => listMean ((fft.drop j).take 12))).length := by
      simpa using hi
    rw [List.getD_eq_getElem _ 0 hlt, List.getElem_map, List.getElem_range]
    rw [drop_take_eq_range_map fft i 12 hbound]
    unfold listMean
    rw [List.length_map, List.length_range]
    norm_num
  · intro hgt b
    refine ⟨?_, rfl⟩
    unfold specBarHeight
    ring

/-- C9 witness: the theorem instantiated at the all-zero spectrum of
length 2501. -/
theorem c9_spectrogram_bins_witness :
    (List.replicate 2501 (0 : ℚ)).length = 2501 ∧
    ((spectrogramBins (List.replicate 2501 (0 : ℚ))).length = 200 ∧
     (List.replicate 2501 (0 : ℚ)).length / 200 = 12 ∧
     (∀ i : ℕ, i < 200 →
       (spectrogramBins (List.replicate 2501 (0 : ℚ))).getD i 0 =
         ((List.range 12).map
           (fun j => (List.replicate 2501 (0 : ℚ)).getD (i + j) 0)).sum / 12) ∧
     (∀ hgt b : ℚ, specBarHeight hgt b = b / (SAMPLE_MAX : ℚ) / 10 * hgt ∧
       specBarTop hgt b = hgt - specBarHeight hgt b)) :=
  ⟨List.length_replicate 2501 0,
   c9_spectrogram_bins (List.replicate 2501 (0 : ℚ)) (List.length_replicate 2501 0)⟩

/-- Helper for C10: one key event preserves equality of the two learning
rates, since both guarded branches change both rates by the same step. -/
theorem keyPressRates_preserves (s : LearningRates)
    (h : s.amplLearningRate = s.freqLearningRate) (k : VisKey) :
    (keyPressRates s k).amplLearningRate = (keyPressRates s k).freqLearningRate := by
  cases k with
  | equal =>
      simp only [keyPressRates]
      split_ifs <;> simp [h]
  | minus =>
      simp only [keyPressRates]
      split_ifs <;> simp [h]
  | other => exact h

/-- C10: after any sequence of key events starting from the initial state
(both rates `0.90`), the amplitude and frequency learning rates are
equal. -/
theorem c10_learning_rates_equal (evs : List VisKey) :
    (evs.foldl keyPressRates initRates).amplLearningRate =
      (evs.foldl keyPressRates initRates).freqLearningRate := by
  suffices h : ∀ s : LearningRates,
      s.amplLearningRate = s.freqLearningRate →
      (evs.foldl keyPressRates s).amplLearningRate =
        (evs.foldl keyPressRates s).freqLearningRate by
    exact h initRates rfl
  induction evs with
  | nil => exact fun s hs => hs
  | cons k rest ih =>
      intro s hs
      rw [List.foldl_cons]
      exact ih (keyPressRates s k) (keyPressRates_preserves s hs k)

end PyVisualizer
